import Mathlib

/-!
Verification development for the template-compiler core: the symbol/scope
manager (CompileScope, SymbolGenerator, FunctionContext, ElementContext)
and the extended expression tokenizer plugin. Each definition is a shallow
embedding of the corresponding source function; JS in-place mutation is
modelled by explicit state passing, optional values model JS
undefined-vs-value distinctions, and code that would throw on an undefined
receiver returns Option.
-/

namespace TC

/-! ## Decimal rendering of numbers

JS coerces the numeric suffix of a generated symbol to its decimal string
(SymbolGenerator.generate concatenates a number into a template literal).
We embed that coercion for naturals, fuelled so it reduces in the kernel. -/

/-- Decimal digit character for d in 0..9, as JS number-to-string produces. -/
def decDigit (d : Nat) : Char := Char.ofNat (48 + d)

/-- Fuelled most-significant-first decimal digits of a natural. -/
def toDecimalAux : Nat → Nat → List Char
  | 0, _ => []
  | fuel + 1, n =>
    if n < 10 then [decDigit n]
    else toDecimalAux fuel (n / 10) ++ [decDigit (n % 10)]

/-- Decimal string of a natural, as JS string coercion of the number. -/
def decimalString (n : Nat) : String := String.mk (toDecimalAux (n + 1) n)

/-- Reads a digit string back into a natural (left inverse used for injectivity). -/
def ofDecimal (l : List Char) : Nat := l.foldl (fun acc c => 10 * acc + (c.toNat - 48)) 0

/-! ## SymbolGenerator

Embeds the SymbolGenerator class: a per-name counter table. The prefix and
suffix parts are either a plain string or a function of the counter
(source: SymbolPartGenerator; the JS number result is its decimal string). -/

/-- A prefix or suffix part of a generated symbol (string or generator function). -/
inductive SymbolPart where
  | strPart : String → SymbolPart
  | genPart : (Nat → String) → SymbolPart

/-- SymbolGenerator._getPart applied to a counter value. -/
def SymbolPart.getPart (num : Nat) : SymbolPart → String
  | .strPart s => s
  | .genPart f => f num

/-- The default numGenerator: renders the counter itself. -/
def numGenerator : SymbolPart := SymbolPart.genPart decimalString

/-- SymbolGenerator state: prefix and suffix policies plus per-name counters
(a JS object keyed by name; modelled as an insertion-ordered association list). -/
structure SymbolGenerator where
  prefixGen : SymbolPart
  suffixGen : SymbolPart
  symbols : List (String × Nat)

/-- Replaces the value stored for a present key, or appends the new key. -/
def setCount : List (String × Nat) → String → Nat → List (String × Nat)
  | [], name, v => [(name, v)]
  | (k, o) :: rest, name, v =>
    if k = name then (k, v) :: rest else (k, o) :: setCount rest name v

/-- SymbolGenerator.generate: bumps (or initializes) the counter for name and
returns prefix-part ++ name ++ suffix-part at that counter. -/
def SymbolGenerator.generate (g : SymbolGenerator) (name : String) :
    String × SymbolGenerator :=
  let num := match g.symbols.lookup name with
    | some n => n + 1
    | none => 0
  (g.prefixGen.getPart num ++ name ++ g.suffixGen.getPart num,
   { g with symbols := setCount g.symbols name num })

/-- Runs a sequence of generate requests, collecting the returned symbols. -/
def generateAll (g : SymbolGenerator) : List String → List String
  | [] => []
  | n :: rest =>
    let (s, g') := g.generate n
    s :: generateAll g' rest

/-- The counter value handed out for each request in a sequence. -/
def generateNums (st : List (String × Nat)) : List String → List Nat
  | [] => []
  | n :: rest =>
    let num := match st.lookup n with
      | some k => k + 1
      | none => 0
    num :: generateNums (setCount st n num) rest

/-! ## Data model of the compile scope -/

/-- Per-element static/dynamic classification flags (source: ElementStats from
node-stats). Modelled from the spec: node-stats is not under src; the spec says
static-content analysis is external and arrives as precomputed flags on each
element, and the scope code reads exactly stats.staticContent and the
truthiness of stats.slotContent. -/
structure ElementStats where
  staticContent : Bool
  slotContent : Bool
deriving DecidableEq

/-- One open markup element (source: ElementContext). Modelled from the spec:
element-context is not under src; the spec lists tag name, the externally
supplied classification, and a parent link, which are the only fields the
scope code reads (ctx.name, ctx.stats, ctx.parent). -/
inductive ElementContext where
  | mk : String → ElementStats → Option ElementContext → ElementContext

/-- Tag name of the element context. -/
def ElementContext.name : ElementContext → String
  | .mk n _ _ => n

/-- Classification flags of the element context. -/
def ElementContext.stats : ElementContext → ElementStats
  | .mk _ st _ => st

/-- Parent link of the element context. -/
def ElementContext.parent : ElementContext → Option ElementContext
  | .mk _ _ p => p

/-- FunctionContext: one per generated function. The source links contexts by
a parent pointer from CompileScope.func; here the whole stack lives in
CompileScope.funcs with the head as the current context. scopeArg is the
SourceNode placeholder for the persistent-scope argument, flattened to its
text (empty until markScopeAsUsed fires). -/
structure FunctionContext where
  update : List String
  localSymbols : SymbolGenerator
  updateSymbols : SymbolGenerator
  updateDeclarations : List (String × String)
  symbol : String
  injector : Option String
  scopeArg : String
  element : Option ElementContext

/-- Declared partial record (source: PartialDeclaration; defaults flattened to text). -/
structure PartialDeclaration where
  name : String
  defaults : String
deriving DecidableEq

/-- Component import record (source: ComponentImport; node.loc.start.pos kept as pos). -/
structure ComponentImport where
  symbol : String
  href : String
  pos : Nat
  used : Bool
deriving DecidableEq

/-- Recognized configuration options (source: CompileScopeOptions). The warn
callback is modelled by warnConfigured plus an accumulated list of delivered
(message, position) pairs in the scope state. -/
structure CompileScopeOptions where
  module : String
  host : String
  scope : String
  partials : String
  cssScope : Option String
  helpers : List (String × List String)
  component : String
  indent : String
  prefixStr : String
  suffixStr : String
  removeUnusedImports : Bool
  warnConfigured : Bool

/-- Source defaultOptions (helpers default maps endorphin/helpers.js to three functions). -/
def defaultOptions : CompileScopeOptions where
  module := "@endorphinjs/endorphin"
  host := "host"
  scope := "scope"
  partials := "partials"
  cssScope := none
  helpers := [("endorphin/helpers.js", ["emit", "setState", "setStore"])]
  component := ""
  indent := "\t"
  prefixStr := "$$"
  suffixStr := ""
  removeUnusedImports := false
  warnConfigured := false

/-- CompileScope: the central codegen state machine (source: class CompileScope).
JS Sets and Maps iterate in insertion order and are modelled as lists;
funcs is the function-context stack (head = current, source field func). -/
structure CompileScope where
  options : CompileScopeOptions
  runtimeSymbols : List String
  usedHelpers : List String
  scopeSymbols : SymbolGenerator
  globalSymbols : SymbolGenerator
  funcs : List FunctionContext
  body : List String
  partialsMap : List (String × PartialDeclaration)
  componentsMap : List (String × ComponentImport)
  namespacesMap : List (String × String)
  namespaceStack : List String
  usedStore : List String
  helpers : List (String × String)
  warned : List String
  warnings : List (String × Option Nat)

/-- Modelled from the spec: utils.tagToJS is not under src; the spec only says
the global-symbol numeric suffix is derived from the component's declared name,
which the options already require to be in CamelCase, so the derivation is
modelled as the name itself. -/
def tagToJS (name : String) : String := name

/-- Modelled from the spec: utils.reverseObject is not under src; the scope
code uses it to turn the url-to-function-list helpers option into the
function-to-url registry the spec describes. -/
def reverseObject (m : List (String × List String)) : List (String × String) :=
  m.flatMap fun p => p.2.map fun f => (f, p.1)

/-- Overlays assoc entries of b over a (later spread wins, as JS object spread). -/
def mergeAssoc (a b : List (String × String)) : List (String × String) :=
  a.map (fun p => (p.1, ((b.lookup p.1).getD p.2))) ++
    b.filter (fun p => (a.lookup p.1).isNone)

/-- CompileScope constructor: fresh registries, a persistent-scope generator
prefixed by scope.$_, and a global generator with the configured prefix and a
component-derived numeric suffix. -/
def CompileScope.init (options : CompileScopeOptions) : CompileScope :=
  let sfx := tagToJS options.component ++ options.suffixStr
  { options := options
    runtimeSymbols := []
    usedHelpers := []
    scopeSymbols :=
      { prefixGen := SymbolPart.genPart fun _ => options.scope ++ ".$_"
        suffixGen := numGenerator
        symbols := [] }
    globalSymbols :=
      { prefixGen := SymbolPart.strPart options.prefixStr
        suffixGen := SymbolPart.genPart fun num => sfx ++ decimalString num
        symbols := [] }
    funcs := []
    body := []
    partialsMap := []
    componentsMap := []
    namespacesMap := []
    namespaceStack := []
    usedStore := []
    helpers := mergeAssoc (reverseObject defaultOptions.helpers)
      (reverseObject options.helpers)
    warned := []
    warnings := [] }

/-! ## CompileScope operations

Each method of the class becomes a state-passing function; methods that
dereference this.func (undefined when the stack is empty, a TypeError in JS)
return Option. -/

namespace CompileScope

/-- JS truthiness of an optional string (undefined and the empty string are falsy). -/
def truthy : Option String → Bool
  | none => false
  | some s => !(s == "")

/-- CompileScope.markScopeAsUsed: adds the scope argument text to the current
function context's scopeArg placeholder, once. -/
def markScopeAsUsed (s : CompileScope) : CompileScope :=
  match s.funcs with
  | [] => s
  | f :: rest =>
    if f.scopeArg == "" then
      { s with funcs := { f with scopeArg := ", " ++ s.options.scope } :: rest }
    else s

/-- CompileScope.scopeSymbol: marks scope as used, then allocates a
persistent-scope symbol. (The generator's prefix closure reads the scope getter,
whose markScopeAsUsed side effect is idempotent after the explicit call.) -/
def scopeSymbol (name : String) (s : CompileScope) : String × CompileScope :=
  let s1 := markScopeAsUsed s
  let (sym, g) := s1.scopeSymbols.generate name
  (sym, { s1 with scopeSymbols := g })

/-- CompileScope.globalSymbol: allocates a top-level module symbol. -/
def globalSymbol (name : String) (s : CompileScope) : String × CompileScope :=
  let (sym, g) := s.globalSymbols.generate name
  (sym, { s with globalSymbols := g })

/-- CompileScope.localSymbol: allocates a symbol in the current function context. -/
def localSymbol (name : String) (s : CompileScope) : Option (String × CompileScope) :=
  match s.funcs with
  | [] => none
  | f :: rest =>
    let (sym, g) := f.localSymbols.generate name
    some (sym, { s with funcs := { f with localSymbols := g } :: rest })

/-- CompileScope.push: appends a chunk to the compiled file contents. -/
def push (chunk : String) (s : CompileScope) : CompileScope :=
  { s with body := s.body ++ [chunk] }

/-- CompileScope.pushUpdate: appends an update chunk to the current function. -/
def pushUpdate (chunk : String) (s : CompileScope) : Option CompileScope :=
  match s.funcs with
  | [] => none
  | f :: rest => some { s with funcs := { f with update := f.update ++ [chunk] } :: rest }

/-- CompileScope.updateSymbol: memoized alias for a value expression in the
current function's update code; a fresh alias prepends its declaration
statement to the update list. -/
def updateSymbol (name value : String) (s : CompileScope) :
    Option (String × CompileScope) :=
  match s.funcs with
  | [] => none
  | f :: rest =>
    match f.updateDeclarations.lookup value with
    | some sym => some (sym, s)
    | none =>
      let (sym, g) := f.updateSymbols.generate name
      some (sym,
        { s with funcs :=
            { f with
              updateSymbols := g
              updateDeclarations := f.updateDeclarations ++ [(value, sym)]
              update := ("const " ++ sym ++ " = " ++ value ++ ";") :: f.update }
            :: rest })

/-- CompileScope.enterFunction: pushes a fresh function context named by a new
global symbol; the optional injector symbol becomes its injector handle. -/
def enterFunction (name : String) (injectorSymbol : Option String)
    (s : CompileScope) : String × CompileScope :=
  let (sym, s1) := globalSymbol name s
  let ctx : FunctionContext :=
    { symbol := sym
      localSymbols := { prefixGen := SymbolPart.strPart "", suffixGen := numGenerator, symbols := [] }
      updateSymbols := { prefixGen := SymbolPart.strPart "", suffixGen := numGenerator, symbols := [] }
      updateDeclarations := []
      injector := injectorSymbol
      scopeArg := ""
      update := []
      element := none }
  (sym, { s1 with funcs := ctx :: s1.funcs })

/-- Argument-list text of a generated function: host, the injector when truthy,
then the scopeArg placeholder content. -/
def argsText (opts : CompileScopeOptions) (f : FunctionContext) : String :=
  opts.host ++ (match f.injector with
    | some i => if i == "" then "" else ", " ++ i
    | none => "") ++ f.scopeArg

/-- Modelled from the spec: utils.format is not under src; the spec says
statements are joined at one indentation level, as the compiled fixtures show
(statements separated by newline plus the indent token). -/
def format (chunks : List String) (indent : String) : String :=
  String.intercalate ("\n" ++ indent) chunks

/-- CompileScope.exitFunction: pops the current context and assembles its
function text; a non-empty update list additionally emits the Update function
and makes the mount body return it. -/
def exitFunction (body : List String) (s : CompileScope) :
    Option (String × CompileScope) :=
  match s.funcs with
  | [] => none
  | f :: rest =>
    let ind := s.options.indent
    let args := argsText s.options f
    let mount := "function " ++ f.symbol ++ "(" ++ args ++ ") \x7b\n" ++ ind
      ++ format body ind
    let out :=
      if f.update.isEmpty then mount ++ "\n\x7d"
      else mount ++ "\n" ++ ind ++ "return " ++ f.symbol ++ "Update;\n\x7d\n\n"
        ++ "function " ++ f.symbol ++ "Update(" ++ args ++ ") \x7b\n" ++ ind
        ++ format f.update ind ++ "\n\x7d"
    some (out, { s with funcs := rest })

/-- CompileScope.enterElement: pushes an element context for the current
function (the element's output/injector plumbing lives in the external
element-context module and is not read by the scope operations embedded here). -/
def enterElement (name : String) (stats : ElementStats) (s : CompileScope) :
    Option CompileScope :=
  match s.funcs with
  | [] => none
  | f :: rest =>
    some { s with funcs :=
      { f with element := some (ElementContext.mk name stats f.element) } :: rest }

/-- CompileScope.element getter: nearest element context along the function chain. -/
def elementOf : List FunctionContext → Option ElementContext
  | [] => none
  | f :: rest =>
    match f.element with
    | some e => some e
    | none => elementOf rest

/-- CompileScope.exitElement: finalizes and pops the nearest element context
(the finalized output is produced by the external element-context module). -/
def exitElement (s : CompileScope) : Option CompileScope :=
  match s.funcs with
  | [] => none
  | f :: rest =>
    match elementOf (f :: rest) with
    | none => none
    | some e => some { s with funcs := { f with element := e.parent } :: rest }

/-- CompileScope.enterNamespace: one constant name per distinct URI, pushed on
the active-namespace stack. -/
def enterNamespace (uri : String) (s : CompileScope) : CompileScope :=
  match s.namespacesMap.lookup uri with
  | some sym => { s with namespaceStack := s.namespaceStack ++ [sym] }
  | none =>
    let (sym, s1) := globalSymbol "ns" s
    { s1 with
      namespacesMap := s1.namespacesMap ++ [(uri, sym)]
      namespaceStack := s1.namespaceStack ++ [sym] }

/-- CompileScope.exitNamespace: pops the active-namespace stack. -/
def exitNamespace (s : CompileScope) : CompileScope :=
  { s with namespaceStack := s.namespaceStack.dropLast }

/-- CompileScope.isComponent: membership in the component-import registry. -/
def isComponent (tagName : String) (s : CompileScope) : Bool :=
  (s.componentsMap.lookup tagName).isSome

/-- CompileScope.inComponent: the nearest element context exists and its tag is
a registered component. -/
def inComponent (s : CompileScope) : Bool :=
  match elementOf s.funcs with
  | some e => isComponent e.name s
  | none => false

/-- CompileScope.requiresInjector: with an element on the current function,
component or non-static or slot content; otherwise the truthiness of the
current function's injector handle. -/
def requiresInjector (s : CompileScope) : Option Bool :=
  match s.funcs with
  | [] => none
  | f :: _ =>
    some (match f.element with
      | some e => inComponent s || !e.stats.staticContent || e.stats.slotContent
      | none => truthy f.injector)

/-- CompileScope.warn: delivers a message through the configured callback. -/
def warn (msg : String) (pos : Option Nat) (s : CompileScope) : CompileScope :=
  if s.options.warnConfigured then { s with warnings := s.warnings ++ [(msg, pos)] }
  else s

/-- The missing-component advisory message for a dashed tag name. -/
def missingComponentMsg (tagName : String) : String :=
  "Missing component definition for <" ++ tagName
    ++ ">, did you forgot to <link rel=\"import\"> it?"

/-- Marks the import record for a tag as used. -/
def markUsed (m : List (String × ComponentImport)) (tagName : String) :
    List (String × ComponentImport) :=
  m.map fun p => if p.1 = tagName then (p.1, { p.2 with used := true }) else p

/-- CompileScope.checkComponent: marks a registered import used, or warns once
per unresolved dashed tag name. -/
def checkComponent (tagName : String) (pos : Nat) (s : CompileScope) : CompileScope :=
  match s.componentsMap.lookup tagName with
  | some _ => { s with componentsMap := markUsed s.componentsMap tagName }
  | none =>
    if tagName.data.contains '-' && !(s.warned.contains tagName) then
      warn (missingComponentMsg tagName) (some pos)
        { s with warned := s.warned ++ [tagName] }
    else s

/-- Registers a child-component import. Modelled from the spec: the map is
populated by the external template codegen when it meets a link-import
element; the scope only stores the symbol, module URL, source node position
and a usage flag. -/
def registerComponent (tagName symbol href : String) (pos : Nat)
    (s : CompileScope) : CompileScope :=
  { s with componentsMap :=
      s.componentsMap ++ [(tagName, { symbol := symbol, href := href, pos := pos, used := false })] }

/-- CompileScope.use: marks a runtime symbol as used and returns its name. -/
def use (symbol : String) (s : CompileScope) : String × CompileScope :=
  (symbol,
   if s.runtimeSymbols.contains symbol then s
   else { s with runtimeSymbols := s.runtimeSymbols ++ [symbol] })

/-- CompileScope.useHelper: marks a helper function as used. -/
def useHelper (symbol : String) (s : CompileScope) : String × CompileScope :=
  (symbol,
   if s.usedHelpers.contains symbol then s
   else { s with usedHelpers := s.usedHelpers ++ [symbol] })

/-- Modelled from the spec: utils.isIdentifier is not under src; standard JS
identifier shape used when the partials registry quotes non-identifier keys. -/
def isIdentifier (name : String) : Bool :=
  match name.data with
  | [] => false
  | c :: rest =>
    (c.isAlpha || c == '_' || c == '$')
      && rest.all fun d => d.isAlphanum || d == '_' || d == '$'

/-- Modelled from the spec: utils.qStr is not under src; quotes a string for
emission into generated module text. -/
def qStr (sv : String) : String := "\"" ++ sv ++ "\""

/-- Modelled from the spec: utils.propAccessor is not under src; dot access for
identifier keys, bracketed string access otherwise. -/
def propAccessor (symbol : String) : String :=
  if isIdentifier symbol then "." ++ symbol else "[" ++ qStr symbol ++ "]"

/-- CompileScope.useStore: marks a store key as used and returns its accessor. -/
def useStore (symbol : String) (s : CompileScope) : String × CompileScope :=
  (s.options.host ++ ".store.data" ++ propAccessor symbol,
   if s.usedStore.contains symbol then s
   else { s with usedStore := s.usedStore ++ [symbol] })

/-- CompileScope.getHelpersMap: groups used helpers by their defining module URL. -/
def getHelpersMap (s : CompileScope) : List (String × List String) :=
  s.usedHelpers.foldl
    (fun acc h =>
      let url := ((s.helpers.lookup h).getD "undefined")
      if acc.lookup url |>.isSome then
        acc.map fun p => if p.1 = url then (p.1, p.2 ++ [h]) else p
      else acc ++ [(url, [h])])
    []

/-! ## Final assembly (CompileScope.compile) -/

/-- Concatenation of emitted text chunks in order (SourceNode flattening). -/
def concatAll (l : List String) : String := l.foldr (fun a b => a ++ b) ""

/-- Runtime-symbol import line, present only when some runtime symbol was used. -/
def runtimeImportText (s : CompileScope) : String :=
  if s.runtimeSymbols.isEmpty then ""
  else "import \x7b " ++ String.intercalate ", " s.runtimeSymbols ++ " \x7d from \""
    ++ s.options.module ++ "\";\n"

/-- Import line for one child-component record. -/
def componentLine (item : ComponentImport) : String :=
  "import * as " ++ item.symbol ++ " from " ++ qStr item.href ++ ";\n"

/-- Unused-import advisory message; mentions skipping when removal is enabled. -/
def unusedImportMsg (removeUnused : Bool) (name : String) : String :=
  "Unused import \"" ++ name ++ "\"" ++ (if removeUnused then ", skipping" else "")

/-- Component import section of the assembled module: unused imports are
dropped exactly when removeUnusedImports is set. -/
def componentsText (removeUnused : Bool) (m : List (String × ComponentImport)) : String :=
  concatAll (m.map fun p =>
    if !p.2.used && removeUnused then "" else componentLine p.2)

/-- Advisory warnings raised while assembling the component import section. -/
def componentsWarnings (removeUnused : Bool) (m : List (String × ComponentImport)) :
    List (String × Option Nat) :=
  (m.filter fun p => !p.2.used).map fun p =>
    (unusedImportMsg removeUnused p.1, some p.2.pos)

/-- Helper import lines grouped by defining module. -/
def helpersText (s : CompileScope) : String :=
  concatAll ((getHelpersMap s).map fun p =>
    "import \x7b " ++ String.intercalate ", " p.2 ++ " \x7d from " ++ qStr p.1 ++ ";\n")

/-- Style-isolation constant export, when configured. -/
def cssScopeText (s : CompileScope) : String :=
  match s.options.cssScope with
  | some css => "\nexport const cssScope = " ++ qStr css ++ ";\n"
  | none => ""

/-- One partials-registry entry. -/
def partialEntry (indent : String) (p : String × PartialDeclaration) : String :=
  "\n" ++ indent ++ (if isIdentifier p.1 then p.1 else qStr p.1) ++ ": \x7b\n"
    ++ indent ++ indent ++ "body: " ++ p.2.name ++ ",\n"
    ++ indent ++ indent ++ "defaults: " ++ p.2.defaults ++ "\n"
    ++ indent ++ "\x7d"

/-- Partials registry export, when any partial was declared. -/
def partialsText (s : CompileScope) : String :=
  if s.partialsMap.isEmpty then ""
  else "\nexport const " ++ s.options.partials ++ " = \x7b"
    ++ String.intercalate ",\n" (s.partialsMap.map (partialEntry s.options.indent))
    ++ "\n\x7d;\n"

/-- Namespace constant declarations. -/
def namespacesText (s : CompileScope) : String :=
  concatAll (s.namespacesMap.map fun p => "const " ++ p.2 ++ " = " ++ qStr p.1 ++ ";\n")

/-- Accumulated function bodies, each wrapped in blank lines. -/
def bodyText (s : CompileScope) : String :=
  concatAll (s.body.map fun chunk => "\n" ++ chunk ++ "\n")

/-- Module text after the component import section. -/
def tailText (s : CompileScope) : String :=
  helpersText s ++ cssScopeText s ++ partialsText s ++ namespacesText s ++ bodyText s

/-- Delivers a batch of warnings through the configured callback. -/
def warnAll (ws : List (String × Option Nat)) (s : CompileScope) : CompileScope :=
  ws.foldl (fun acc w => warn w.1 w.2 acc) s

/-- CompileScope.compile: final module-text assembly in source order — runtime
imports, component imports (warning on unused ones), helper imports, css
scope, partials registry, namespace constants, then every accumulated
function body. -/
def compile (s : CompileScope) : String × CompileScope :=
  (runtimeImportText s
     ++ componentsText s.options.removeUnusedImports s.componentsMap
     ++ tailText s,
   warnAll (componentsWarnings s.options.removeUnusedImports s.componentsMap) s)

end CompileScope

/-! ## Extended expression tokenizer (acorn plugin)

EndorphinParser.readToken intercepts every token start: identifier-start
characters and the sigils # and @ enter end_readWord, which consumes the
first character unconditionally and then every identifier character or dash.
Other characters fall back to the standard expression tokenizer (an external
collaborator); the fragment of it the claims touch — whitespace skipping,
digit runs as numeric literals, single-character operator tokens — is
modelled from the spec. -/

/-- Modelled from the spec: acorn's isIdentifierStart, on the ASCII fragment
the templates use (letters, underscore, dollar). -/
def isIdentStart (c : Char) : Bool := c.isAlpha || c == '_' || c == '$'

/-- Modelled from the spec: acorn's isIdentifierChar on the same fragment. -/
def isIdentChar (c : Char) : Bool := isIdentStart c || c.isDigit

/-- Characters entering end_readWord from readToken: identifier starts plus the sigils. -/
def wordStart (c : Char) : Bool := isIdentStart c || c == '#' || c == '@'

/-- Continuation characters of end_readWord: identifier characters plus dash. -/
def wordCont (c : Char) : Bool := isIdentChar c || c == '-'

/-- Tokens of the extended expression lexer. -/
inductive Tok where
  | name : String → Tok
  | num : String → Tok
  | punct : Char → Tok
deriving DecidableEq

/-- Fuelled token scan. Each step consumes at least one character, so fuel at
least the input length never runs out. -/
def tokenizeAux : Nat → List Char → List Tok
  | 0, _ => []
  | _ + 1, [] => []
  | fuel + 1, c :: rest =>
    if c == ' ' || c == '\t' || c == '\n' then tokenizeAux fuel rest
    else if wordStart c then
      Tok.name (String.mk (c :: rest.takeWhile wordCont))
        :: tokenizeAux fuel (rest.dropWhile wordCont)
    else if c.isDigit then
      Tok.num (String.mk (c :: rest.takeWhile Char.isDigit))
        :: tokenizeAux fuel (rest.dropWhile Char.isDigit)
    else Tok.punct c :: tokenizeAux fuel rest

/-- Tokenizes an expression source string. -/
def tokenize (sv : String) : List Tok := tokenizeAux sv.data.length sv.data

/-- A token is a sigil-identifier when it is an identifier token beginning
with # or @. -/
def isSigilName : Tok → Bool
  | .name sv =>
    match sv.data with
    | c :: _ => c == '#' || c == '@'
    | [] => false
  | _ => false

/-! ## Operation language over one CompileScope instance

Used to state whole-compilation properties: a compilation is a sequence of
the embedded public operations driven by the (external) tree traversal.
Operations whose source would throw on an empty function stack propagate
failure. -/

/-- One public CompileScope operation with its arguments. -/
inductive Op where
  | use : String → Op
  | useHelper : String → Op
  | useStore : String → Op
  | scopeSymbol : String → Op
  | globalSymbol : String → Op
  | localSymbol : String → Op
  | push : String → Op
  | pushUpdate : String → Op
  | updateSymbol : String → String → Op
  | enterFunction : String → Option String → Op
  | exitFunction : List String → Op
  | enterElement : String → ElementStats → Op
  | exitElement : Op
  | enterNamespace : String → Op
  | exitNamespace : Op
  | checkComponent : String → Nat → Op
  | registerComponent : String → String → String → Nat → Op

/-- Applies one operation to a scope state (discarding returned text, except
that a completed function body is appended to the module body, matching how
the traversal pushes each finished function). -/
def Op.apply (s : CompileScope) : Op → Option CompileScope
  | .use sym => some (CompileScope.use sym s).2
  | .useHelper sym => some (CompileScope.useHelper sym s).2
  | .useStore sym => some (CompileScope.useStore sym s).2
  | .scopeSymbol n => some (CompileScope.scopeSymbol n s).2
  | .globalSymbol n => some (CompileScope.globalSymbol n s).2
  | .localSymbol n => (CompileScope.localSymbol n s).map (·.2)
  | .push c => some (CompileScope.push c s)
  | .pushUpdate c => CompileScope.pushUpdate c s
  | .updateSymbol n v => (CompileScope.updateSymbol n v s).map (·.2)
  | .enterFunction n inj => some (CompileScope.enterFunction n inj s).2
  | .exitFunction b => (CompileScope.exitFunction b s).map fun r => CompileScope.push r.1 r.2
  | .enterElement n st => CompileScope.enterElement n st s
  | .exitElement => CompileScope.exitElement s
  | .enterNamespace uri => some (CompileScope.enterNamespace uri s)
  | .exitNamespace => some (CompileScope.exitNamespace s)
  | .checkComponent t p => some (CompileScope.checkComponent t p s)
  | .registerComponent t sym href p => some (CompileScope.registerComponent t sym href p s)

/-- Runs a sequence of operations, propagating failure. -/
def runOps : List Op → CompileScope → Option CompileScope
  | [], s => some s
  | op :: rest, s =>
    match op.apply s with
    | none => none
    | some s' => runOps rest s'

/-- Two independent instances: each step applies an operation to the first
(true) or second (false) instance. -/
def runPair : List (Bool × Op) → CompileScope × CompileScope →
    Option (CompileScope × CompileScope)
  | [], p => some p
  | (side, op) :: rest, (a, b) =>
    if side then
      match op.apply a with
      | none => none
      | some a' => runPair rest (a', b)
    else
      match op.apply b with
      | none => none
      | some b' => runPair rest (a, b')

/-- The operations a tagged program applies to one side. -/
def sideOps (side : Bool) (prog : List (Bool × Op)) : List Op :=
  (prog.filter fun p => p.1 == side).map (·.2)

/-! ## Derived observation functions used to state the claims -/

/-- Counter value the next generate call for a name will hand out from a state. -/
def baseOf (st : List (String × Nat)) (n : String) : Nat :=
  match st.lookup n with
  | some k => k + 1
  | none => 0

/-- Runs an interleaved sequence of globalSymbol (true) and scopeSymbol (false)
calls, tagging each returned symbol with its family. -/
def interleavedResults : List (Bool × String) → CompileScope → List (Bool × String)
  | [], _ => []
  | (isGlobal, n) :: rest, s =>
    let r := if isGlobal then CompileScope.globalSymbol n s else CompileScope.scopeSymbol n s
    (isGlobal, r.1) :: interleavedResults rest r.2

/-- The names requested from one family by an interleaved call sequence. -/
def callNames (isGlobal : Bool) (calls : List (Bool × String)) : List String :=
  (calls.filter fun c => c.1 == isGlobal).map (·.2)

/-- The symbols one family returned during an interleaved call sequence. -/
def resultsOf (isGlobal : Bool) (calls : List (Bool × String)) (s : CompileScope) :
    List String :=
  ((interleavedResults calls s).filter fun c => c.1 == isGlobal).map (·.2)

/-- Spec wording, first requiresInjector disjunct: the current element's
content is not fully static. -/
def specNotFullyStatic (s : CompileScope) : Bool :=
  match CompileScope.elementOf s.funcs with
  | some e => !e.stats.staticContent
  | none => false

/-- Spec wording, second requiresInjector disjunct: the current position is
inside content projected into a component's slot. -/
def specInSlotContent (s : CompileScope) : Bool :=
  match CompileScope.elementOf s.funcs with
  | some e => e.stats.slotContent
  | none => false

/-- Spec wording, third requiresInjector disjunct: the current position is
inside a child-component boundary. -/
def specInComponentBoundary (s : CompileScope) : Bool :=
  CompileScope.inComponent s

/-- Spec wording for when requiresInjector is claimed to return true. -/
def specInjectorNeed (s : CompileScope) : Bool :=
  specNotFullyStatic s || specInSlotContent s || specInComponentBoundary s

/-- A fresh per-function symbol generator (empty prefix, numeric suffix),
as enterFunction allocates for local and update symbols. -/
def emptySG : SymbolGenerator :=
  { prefixGen := SymbolPart.strPart "", suffixGen := numGenerator, symbols := [] }

/-- A function context exactly as enterFunction creates it, with a given
symbol and injector, possibly after opening an element. -/
def plainCtx (symbol : String) (inj : Option String)
    (elem : Option ElementContext) : FunctionContext :=
  { update := [], localSymbols := emptySG, updateSymbols := emptySG
    updateDeclarations := [], symbol := symbol, injector := inj
    scopeArg := "", element := elem }

/-- The scope with the removeUnusedImports option toggled. -/
def withRemoveUnused (b : Bool) (s : CompileScope) : CompileScope :=
  { s with options := { s.options with removeUnusedImports := b } }

/-! # Theorems

First the supporting lemmas, then one theorem per claim (with witnesses and
counterexamples where required). -/

/-! ## Decimal rendering lemmas -/

theorem decDigit_toNat {d : Nat} (h : d < 10) : (decDigit d).toNat - 48 = d := by
  interval_cases d <;> decide

theorem ofDecimal_append_digit (l : List Char) (c : Char) :
    ofDecimal (l ++ [c]) = 10 * ofDecimal l + (c.toNat - 48) := by
  simp [ofDecimal, List.foldl_append]

theorem ofDecimal_toDecimalAux : ∀ (fuel n : Nat), n < fuel →
    ofDecimal (toDecimalAux fuel n) = n := by
  intro fuel
  induction fuel with
  | zero => intro n h; omega
  | succ f ih =>
    intro n h
    by_cases h10 : n < 10
    · simp only [toDecimalAux, if_pos h10]
      show ofDecimal [decDigit n] = n
      simp [ofDecimal, decDigit_toNat h10]
    · have hn0 : 0 < n := by omega
      have hdiv : n / 10 < n := Nat.div_lt_self hn0 (by omega)
      have hf : n / 10 < f := by omega
      simp only [toDecimalAux, if_neg h10]
      rw [ofDecimal_append_digit, ih _ hf, decDigit_toNat (Nat.mod_lt _ (by omega))]
      omega

theorem decimalString_injective : Function.Injective decimalString := by
  intro a b h
  have hd : toDecimalAux (a + 1) a = toDecimalAux (b + 1) b := congrArg String.data h
  have := ofDecimal_toDecimalAux (a + 1) a (Nat.lt_succ_self a)
  rw [hd, ofDecimal_toDecimalAux (b + 1) b (Nat.lt_succ_self b)] at this
  exact this.symm

/-! ## String concatenation helpers -/

theorem strAppend_cancel_left {a x y : String} (h : a ++ x = a ++ y) : x = y := by
  apply String.ext
  have := congrArg String.data h
  rw [String.data_append, String.data_append] at this
  exact List.append_cancel_left this

theorem strAppend_prefix_of_eq {n1 n2 x y : String}
    (h : n1 ++ x = n2 ++ y) : n1.data <+: n2.data ∨ n2.data <+: n1.data := by
  have hd := congrArg String.data h
  rw [String.data_append, String.data_append] at hd
  rcases List.append_eq_append_iff.mp hd with ⟨a', ha, _⟩ | ⟨c', hc, _⟩
  · exact Or.inl ⟨a', ha.symm⟩
  · exact Or.inr ⟨c', hc.symm⟩

/-! ## SymbolGenerator lemmas -/

theorem lookup_setCount (n : String) (v : Nat) (m : String) :
    ∀ st : List (String × Nat),
    (setCount st n v).lookup m = if m = n then some v else st.lookup m := by
  intro st
  induction st with
  | nil =>
    rcases eq_or_ne m n with h | h
    · have hb : (m == n) = true := beq_iff_eq.mpr h
      simp [setCount, List.lookup_cons, List.lookup_nil, hb, h]
    · have hb : (m == n) = false := beq_eq_false_iff_ne.mpr h
      simp [setCount, List.lookup_cons, List.lookup_nil, hb, h]
  | cons p rest ih =>
    rcases p with ⟨k, o⟩
    rcases eq_or_ne k n with hk | hk
    · subst hk
      rcases eq_or_ne m k with hm | hm
      · have hb : (m == k) = true := beq_iff_eq.mpr hm
        simp [setCount, List.lookup_cons, hb, hm]
      · have hb : (m == k) = false := beq_eq_false_iff_ne.mpr hm
        simp [setCount, List.lookup_cons, hb, hm]
    · rcases eq_or_ne m k with hm | hm
      · have hmn : m ≠ n := fun hh => hk (hm ▸ hh)
        have hb : (m == k) = true := beq_iff_eq.mpr hm
        have hbn : (m == n) = false := beq_eq_false_iff_ne.mpr hmn
        simp [setCount, List.lookup_cons, hk, hb, hmn]
      · have hb : (m == k) = false := beq_eq_false_iff_ne.mpr hm
        simp [setCount, List.lookup_cons, hk, hb, ih]

theorem generateNums_length (st : List (String × Nat)) (names : List String) :
    (generateNums st names).length = names.length := by
  induction names generalizing st with
  | nil => rfl
  | cons n rest ih => simp [generateNums, ih]

theorem generateAll_eq_zipWith (pg sg : SymbolPart) :
    ∀ (names : List String) (st : List (String × Nat)),
    generateAll ⟨pg, sg, st⟩ names =
      List.zipWith (fun nm num => pg.getPart num ++ nm ++ sg.getPart num)
        names (generateNums st names) := by
  intro names
  induction names with
  | nil => intro st; rfl
  | cons n rest ih =>
    intro st
    simp only [generateAll, SymbolGenerator.generate, generateNums, List.zipWith]
    exact congrArg _ (ih _)

theorem generateNums_get (names : List String) :
    ∀ (st : List (String × Nat)) (i : Nat) (hi : i < names.length)
    (hg : i < (generateNums st names).length),
    (generateNums st names)[i] =
      baseOf st names[i] + (names.take i).count names[i] := by
  induction names with
  | nil => intro st i hi hg; exact absurd hi (by simp)
  | cons n rest ih =>
    intro st i hi hg
    cases i with
    | zero =>
      show baseOf st n = baseOf st n + ((List.take 0 (n :: rest)).count n)
      simp
    | succ j =>
      have hj : j < rest.length := Nat.lt_of_succ_lt_succ hi
      have hg' : j < (generateNums (setCount st n (baseOf st n)) rest).length := by
        rw [generateNums_length]; exact hj
      have hL : (generateNums st (n :: rest))[j + 1] =
          (generateNums (setCount st n (baseOf st n)) rest)[j] := rfl
      rw [hL, ih _ j hj hg']
      have hget : (n :: rest)[j + 1] = rest[j] := rfl
      rw [hget, List.take_succ_cons, List.count_cons]
      rcases eq_or_ne (rest[j]) n with hmn | hmn
      · rw [hmn]
        have hb : baseOf (setCount st n (baseOf st n)) n = baseOf st n + 1 := by
          show (match (setCount st n (baseOf st n)).lookup n with
            | some k => k + 1 | none => 0) = baseOf st n + 1
          rw [lookup_setCount, if_pos rfl]
        rw [hb]
        simp only [beq_self_eq_true, if_true]
        omega
      · have hb : baseOf (setCount st n (baseOf st n)) (rest[j]) =
            baseOf st (rest[j]) := by
          show (match (setCount st n (baseOf st n)).lookup (rest[j]) with
            | some k => k + 1 | none => 0) = baseOf st (rest[j])
          rw [lookup_setCount, if_neg hmn]
          rfl
        rw [hb]
        have hne : (n == rest[j]) = false := by
          simp only [beq_eq_false_iff_ne, ne_eq]
          exact fun h => hmn h.symm
        rw [hne]
        simp

theorem count_take_lt (names : List String) {i j : Nat}
    (hi : i < names.length) (hj : j < names.length) (hij : i < j)
    (heq : names[i] = names[j]) :
    (names.take i).count (names[i]) < (names.take j).count (names[j]) := by
  have h1 : (names.take (i + 1)).count (names[i]) =
      (names.take i).count (names[i]) + 1 := by
    rw [List.take_succ, List.getElem?_eq_getElem hi]
    show (names.take i ++ (some (names[i])).toList).count (names[i]) = _
    rw [List.count_append]
    simp
  have h2 : (names.take (i + 1)).count (names[i]) ≤
      (names.take j).count (names[i]) :=
    (List.take_prefix_take_left names (by omega)).sublist.count_le _
  rw [← heq]
  omega

theorem symbolText_ne (p c : String) {n1 n2 : String} {k1 k2 : Nat}
    (hcase : (n1 = n2 ∧ k1 ≠ k2) ∨
      (¬ n1.data <+: n2.data ∧ ¬ n2.data <+: n1.data)) :
    p ++ n1 ++ (c ++ decimalString k1) ≠ p ++ n2 ++ (c ++ decimalString k2) := by
  intro h
  rw [String.append_assoc, String.append_assoc] at h
  have h2 := strAppend_cancel_left h
  rcases hcase with ⟨hn, hk⟩ | ⟨hp1, hp2⟩
  · subst hn
    have h3 := strAppend_cancel_left h2
    have h4 := strAppend_cancel_left h3
    exact hk (decimalString_injective h4)
  · rcases strAppend_prefix_of_eq h2 with hpre | hpre
    · exact hp1 hpre
    · exact hp2 hpre

theorem generateAll_nodup (p c : String) (pg sg : SymbolPart)
    (hp : ∀ k, pg.getPart k = p)
    (hsx : ∀ k, sg.getPart k = c ++ decimalString k)
    (names : List String)
    (hpref : ∀ n1 ∈ names, ∀ n2 ∈ names, n1.data <+: n2.data → n1 = n2) :
    (generateAll ⟨pg, sg, []⟩ names).Nodup := by
  rw [generateAll_eq_zipWith]
  rw [List.Nodup, List.pairwise_iff_get]
  intro a b hab
  simp only [List.get_eq_getElem]
  have hlen : (List.zipWith (fun nm num => pg.getPart num ++ nm ++ sg.getPart num)
      names (generateNums [] names)).length = names.length := by
    rw [List.length_zipWith, generateNums_length]
    omega
  have ha : (a : Nat) < names.length := by rw [← hlen]; exact a.isLt
  have hb : (b : Nat) < names.length := by rw [← hlen]; exact b.isLt
  have hag : (a : Nat) < (generateNums [] names).length := by
    rw [generateNums_length]; exact ha
  have hbg : (b : Nat) < (generateNums [] names).length := by
    rw [generateNums_length]; exact hb
  rw [List.getElem_zipWith, List.getElem_zipWith]
  rw [hp, hp, hsx, hsx]
  have hna : (generateNums [] names)[(a : Nat)] =
      (names.take (a : Nat)).count (names[(a : Nat)]) := by
    rw [generateNums_get names [] (a : Nat) ha hag]
    simp [baseOf, List.lookup_nil]
  have hnb : (generateNums [] names)[(b : Nat)] =
      (names.take (b : Nat)).count (names[(b : Nat)]) := by
    rw [generateNums_get names [] (b : Nat) hb hbg]
    simp [baseOf, List.lookup_nil]
  rcases eq_or_ne (names[(a : Nat)]) (names[(b : Nat)]) with hnab | hnab
  · apply symbolText_ne p c
    left
    refine ⟨hnab, ?_⟩
    rw [hna, hnb]
    have := count_take_lt names ha hb hab hnab
    omega
  · apply symbolText_ne p c
    right
    constructor
    · intro hpre
      exact hnab (hpref _ (List.getElem_mem ha) _ (List.getElem_mem hb) hpre)
    · intro hpre
      exact hnab ((hpref _ (List.getElem_mem hb) _ (List.getElem_mem ha) hpre).symm)

theorem markScopeAsUsed_generators (s : CompileScope) :
    (CompileScope.markScopeAsUsed s).globalSymbols = s.globalSymbols ∧
    (CompileScope.markScopeAsUsed s).scopeSymbols = s.scopeSymbols := by
  unfold CompileScope.markScopeAsUsed
  cases s.funcs with
  | nil => exact ⟨rfl, rfl⟩
  | cons f rest =>
    by_cases h : (f.scopeArg == "") = true <;> simp [h]

theorem interleaved_family (calls : List (Bool × String)) :
    ∀ s : CompileScope,
    resultsOf true calls s = generateAll s.globalSymbols (callNames true calls) ∧
    resultsOf false calls s = generateAll s.scopeSymbols (callNames false calls) := by
  induction calls with
  | nil => intro s; exact ⟨rfl, rfl⟩
  | cons c rest ih =>
    intro s
    rcases c with ⟨isGlobal, n⟩
    cases isGlobal
    · have hmark := markScopeAsUsed_generators s
      have step : interleavedResults ((false, n) :: rest) s =
          (false, (CompileScope.scopeSymbol n s).1)
            :: interleavedResults rest (CompileScope.scopeSymbol n s).2 := rfl
      constructor
      · show resultsOf true rest (CompileScope.scopeSymbol n s).2 = _
        rw [(ih _).1]
        have : (CompileScope.scopeSymbol n s).2.globalSymbols = s.globalSymbols := by
          simp [CompileScope.scopeSymbol, hmark.1]
        rw [this]
        rfl
      · show (CompileScope.scopeSymbol n s).1
            :: resultsOf false rest (CompileScope.scopeSymbol n s).2 = _
        rw [(ih _).2]
        have h2 : (CompileScope.scopeSymbol n s).2.scopeSymbols =
            (s.scopeSymbols.generate n).2 := by
          simp [CompileScope.scopeSymbol, hmark.2]
        have h1 : (CompileScope.scopeSymbol n s).1 = (s.scopeSymbols.generate n).1 := by
          simp [CompileScope.scopeSymbol, hmark.2]
        rw [h1, h2]
        rfl
    · constructor
      · show (CompileScope.globalSymbol n s).1
            :: resultsOf true rest (CompileScope.globalSymbol n s).2 = _
        rw [(ih _).1]
        rfl
      · show resultsOf false rest (CompileScope.globalSymbol n s).2 = _
        rw [(ih _).2]
        rfl

/-- C1 (corrected). Amended claim proved here: within one freshly constructed
CompileScope, for any interleaving of globalSymbol and scopeSymbol calls, each
family's returned symbols are pairwise textually distinct provided no
requested logical name of that family strictly extends another one of the
same family (prefix-freeness, the amendment the counterexample forces); and,
unconditionally, for each logical name the numeric suffix handed out by
SymbolGenerator.generate strictly increases across repeated requests, so a
number is never reused. -/
theorem c1_symbol_uniqueness_amended (opts : CompileScopeOptions)
    (calls : List (Bool × String))
    (hg : ∀ n1 ∈ callNames true calls, ∀ n2 ∈ callNames true calls,
      n1.data <+: n2.data → n1 = n2)
    (hs : ∀ n1 ∈ callNames false calls, ∀ n2 ∈ callNames false calls,
      n1.data <+: n2.data → n1 = n2) :
    (resultsOf true calls (CompileScope.init opts)).Nodup ∧
    (resultsOf false calls (CompileScope.init opts)).Nodup ∧
    (∀ gl : Bool, ∀ i j : Nat, ∀ hi : i < (callNames gl calls).length,
     ∀ hj : j < (callNames gl calls).length,
     ∀ hgi : i < (generateNums [] (callNames gl calls)).length,
     ∀ hgj : j < (generateNums [] (callNames gl calls)).length,
     i < j → (callNames gl calls)[i] = (callNames gl calls)[j] →
     (generateNums [] (callNames gl calls))[i] <
       (generateNums [] (callNames gl calls))[j]) := by
  refine ⟨?_, ?_, ?_⟩
  · rw [(interleaved_family calls _).1]
    show (generateAll
      ⟨SymbolPart.strPart opts.prefixStr,
       SymbolPart.genPart fun num =>
         (tagToJS opts.component ++ opts.suffixStr) ++ decimalString num, []⟩
      (callNames true calls)).Nodup
    exact generateAll_nodup opts.prefixStr (tagToJS opts.component ++ opts.suffixStr)
      (SymbolPart.strPart opts.prefixStr)
      (SymbolPart.genPart fun num =>
        (tagToJS opts.component ++ opts.suffixStr) ++ decimalString num)
      (fun _ => rfl) (fun _ => rfl) _ hg
  · rw [(interleaved_family calls _).2]
    show (generateAll
      ⟨SymbolPart.genPart fun _ => opts.scope ++ ".$_", numGenerator, []⟩
      (callNames false calls)).Nodup
    exact generateAll_nodup (opts.scope ++ ".$_") ""
      (SymbolPart.genPart fun _ => opts.scope ++ ".$_") numGenerator
      (fun _ => rfl) (fun _ => rfl) _ hs
  · intro gl i j hi hj hgi hgj hij heq
    rw [generateNums_get _ [] i hi hgi, generateNums_get _ [] j hj hgj]
    have hc := count_take_lt (callNames gl calls) hi hj hij heq
    simp only [baseOf, List.lookup_nil, Nat.zero_add]
    exact hc

/-- C1 witness: a concrete prefix-free request sequence on which the amended
claim applies and yields distinct global symbols. -/
theorem c1_witness :
    ((∀ n1 ∈ callNames true [(true, "template"), (false, "block"),
        (true, "conditionEntry"), (true, "template")],
      ∀ n2 ∈ callNames true [(true, "template"), (false, "block"),
        (true, "conditionEntry"), (true, "template")],
      n1.data <+: n2.data → n1 = n2) ∧
     (∀ n1 ∈ callNames false [(true, "template"), (false, "block"),
        (true, "conditionEntry"), (true, "template")],
      ∀ n2 ∈ callNames false [(true, "template"), (false, "block"),
        (true, "conditionEntry"), (true, "template")],
      n1.data <+: n2.data → n1 = n2)) ∧
    (resultsOf true [(true, "template"), (false, "block"),
      (true, "conditionEntry"), (true, "template")]
      (CompileScope.init defaultOptions)).Nodup :=
  ⟨⟨by decide, by decide⟩,
    (c1_symbol_uniqueness_amended defaultOptions
      [(true, "template"), (false, "block"), (true, "conditionEntry"), (true, "template")]
      (by decide) (by decide)).1⟩

/-- C1 counterexample: the claim as stated is false — with the default
configuration, requesting the global names a1, then a eleven times, returns
the symbol text a10 (with prefix) twice, so the returned global symbols are
not pairwise textually distinct. -/
theorem c1_counterexample :
    ¬ (resultsOf true ((true, "a1") :: List.replicate 11 (true, "a"))
        (CompileScope.init defaultOptions)).Nodup := by decide

/-- C2 (corrected). Amended claim proved here: when the current FunctionContext
has an open element of its own, requiresInjector returns true iff the element
content is not fully static, or is slot-projected content, or the position is
inside a child-component boundary; when the current FunctionContext has no
open element, requiresInjector instead returns the truthiness of the injector
handle the function was entered with (the case the claim's "in every other
state it returns false" misses). -/
theorem c2_requiresInjector_amended (s : CompileScope) (f : FunctionContext)
    (rest : List FunctionContext) (h : s.funcs = f :: rest) :
    CompileScope.requiresInjector s = some true ↔
      ((f.element.isSome ∧
        (specNotFullyStatic s ∨ specInSlotContent s ∨ specInComponentBoundary s)) ∨
       (f.element = none ∧ CompileScope.truthy f.injector)) := by
  have hreq : CompileScope.requiresInjector s =
      some (match f.element with
        | some e => CompileScope.inComponent s
            || !e.stats.staticContent || e.stats.slotContent
        | none => CompileScope.truthy f.injector) := by
    rw [CompileScope.requiresInjector, h]

  cases he : f.element with
  | some e =>
    have helem : CompileScope.elementOf s.funcs = some e := by
      rw [h, CompileScope.elementOf, he]
    rw [hreq, he]
    simp only [specNotFullyStatic, specInSlotContent, specInComponentBoundary,
      helem, Option.isSome_some, Option.some.injEq, true_and, he]
    constructor
    · intro hor
      left
      rcases Bool.or_eq_true_iff.mp hor with hor1 | h3
      · rcases Bool.or_eq_true_iff.mp hor1 with h1 | h2
        · exact Or.inr (Or.inr h1)
        · exact Or.inl h2
      · exact Or.inr (Or.inl h3)
    · intro hor
      rcases hor with hval | hfalse
      · rcases hval with h1 | h2 | h3
        · exact Bool.or_eq_true_iff.mpr (Or.inl (Bool.or_eq_true_iff.mpr (Or.inr h1)))
        · exact Bool.or_eq_true_iff.mpr (Or.inr h2)
        · exact Bool.or_eq_true_iff.mpr (Or.inl (Bool.or_eq_true_iff.mpr (Or.inl h3)))
      · exact absurd hfalse.1 (by simp)
  | none =>
    rw [hreq, he]
    simp

/-- C2 witness: a fully dynamic div element inside the root template function
makes the amended equivalence applicable and requiresInjector true. -/
theorem c2_witness :
    ((CompileScope.enterElement "div" ⟨false, false⟩
        (CompileScope.enterFunction "template" none
          (CompileScope.init defaultOptions)).2).getD
      (CompileScope.init defaultOptions)).funcs =
      ⟨[], ⟨SymbolPart.strPart "", numGenerator, []⟩,
        ⟨SymbolPart.strPart "", numGenerator, []⟩, [], "$$template0", none, "",
        some (ElementContext.mk "div" ⟨false, false⟩ none)⟩ :: [] ∧
    (CompileScope.requiresInjector
      ((CompileScope.enterElement "div" ⟨false, false⟩
          (CompileScope.enterFunction "template" none
            (CompileScope.init defaultOptions)).2).getD
        (CompileScope.init defaultOptions)) = some true ↔
      (((some (ElementContext.mk "div" ⟨false, false⟩ none) :
            Option ElementContext).isSome ∧
        (specNotFullyStatic ((CompileScope.enterElement "div" ⟨false, false⟩
            (CompileScope.enterFunction "template" none
              (CompileScope.init defaultOptions)).2).getD
          (CompileScope.init defaultOptions)) ∨
         specInSlotContent ((CompileScope.enterElement "div" ⟨false, false⟩
            (CompileScope.enterFunction "template" none
              (CompileScope.init defaultOptions)).2).getD
          (CompileScope.init defaultOptions)) ∨
         specInComponentBoundary ((CompileScope.enterElement "div" ⟨false, false⟩
            (CompileScope.enterFunction "template" none
              (CompileScope.init defaultOptions)).2).getD
          (CompileScope.init defaultOptions)))) ∨
       ((some (ElementContext.mk "div" ⟨false, false⟩ none) :
            Option ElementContext) = none ∧
        CompileScope.truthy none))) :=
  ⟨rfl,
   c2_requiresInjector_amended _
     ⟨[], ⟨SymbolPart.strPart "", numGenerator, []⟩,
       ⟨SymbolPart.strPart "", numGenerator, []⟩, [], "$$template0", none, "",
       some (ElementContext.mk "div" ⟨false, false⟩ none)⟩ [] rfl⟩

/-- C2 counterexample: the claim as stated is false — after entering a
function with an injector handle and no element, requiresInjector returns
true though none of the three claimed conditions holds (not-fully-static,
slot content, component boundary are all false, there being no element). -/
theorem c2_counterexample :
    CompileScope.requiresInjector
      (CompileScope.enterFunction "content" (some "injector")
        (CompileScope.init defaultOptions)).2 = some true ∧
    specInjectorNeed
      (CompileScope.enterFunction "content" (some "injector")
        (CompileScope.init defaultOptions)).2 = false :=
  ⟨rfl, rfl⟩

/-- C9 (corrected). Amended claim proved here: when the current
FunctionContext has no open ElementContext of its own, requiresInjector
returns true iff enterFunction's injectorSymbol argument was supplied with a
non-empty (truthy) symbol. -/
theorem c9_injector_fallback_amended (s : CompileScope) (f : FunctionContext)
    (rest : List FunctionContext) (h : s.funcs = f :: rest)
    (he : f.element = none) :
    (CompileScope.requiresInjector s = some true ↔
      CompileScope.truthy f.injector = true) := by
  rw [CompileScope.requiresInjector, h]
  show some (match f.element with
    | some e => CompileScope.inComponent s
        || !e.stats.staticContent || e.stats.slotContent
    | none => CompileScope.truthy f.injector) = some true ↔ _
  rw [he]
  simp

/-- C9 witness: a function entered with the non-empty injector symbol
"injector" and no element satisfies the amended equivalence, giving
requiresInjector true. -/
theorem c9_witness :
    (CompileScope.enterFunction "content" (some "injector")
        (CompileScope.init defaultOptions)).2.funcs =
      ⟨[], ⟨SymbolPart.strPart "", numGenerator, []⟩,
        ⟨SymbolPart.strPart "", numGenerator, []⟩, [], "$$content0",
        some "injector", "", none⟩ :: [] ∧
    (CompileScope.requiresInjector
        (CompileScope.enterFunction "content" (some "injector")
          (CompileScope.init defaultOptions)).2 = some true ↔
      CompileScope.truthy (some "injector") = true) :=
  ⟨rfl,
   c9_injector_fallback_amended _
     ⟨[], ⟨SymbolPart.strPart "", numGenerator, []⟩,
       ⟨SymbolPart.strPart "", numGenerator, []⟩, [], "$$content0",
       some "injector", "", none⟩ [] rfl rfl⟩

/-- C9 counterexample: the claim as stated is false — supplying the
injectorSymbol argument as the empty string leaves requiresInjector false,
though the argument was supplied. -/
theorem c9_counterexample :
    (CompileScope.enterFunction "b" (some "")
        (CompileScope.init defaultOptions)).2.funcs.map
      (fun f => f.injector) = [some ""] ∧
    (CompileScope.enterFunction "b" (some "")
        (CompileScope.init defaultOptions)).2.funcs.map
      (fun f => f.element.isNone) = [true] ∧
    CompileScope.requiresInjector
      (CompileScope.enterFunction "b" (some "")
        (CompileScope.init defaultOptions)).2 = some false :=
  ⟨rfl, rfl, rfl⟩

/-- C3 (corrected). Amended claim proved here: scopeSymbol marks only the
current FunctionContext — its scopeArg becomes the scope-argument text when
empty and stays unchanged otherwise, ending non-empty either way — while every
ancestor context is left untouched; and a FunctionContext whose scopeArg is
still empty yields an emitted argument list without the scope argument. -/
theorem c3_scopeSymbol_marks_current_amended (s : CompileScope)
    (f : FunctionContext) (rest : List FunctionContext) (name : String)
    (h : s.funcs = f :: rest) :
    (CompileScope.scopeSymbol name s).2.funcs =
      { f with scopeArg := if f.scopeArg == "" then ", " ++ s.options.scope
          else f.scopeArg } :: rest ∧
    (if f.scopeArg == "" then ", " ++ s.options.scope else f.scopeArg) ≠ "" ∧
    (∀ g : FunctionContext, g.scopeArg = "" →
      CompileScope.argsText s.options g =
        s.options.host ++ (match g.injector with
          | some i => if i == "" then "" else ", " ++ i
          | none => "")) := by
  refine ⟨?_, ?_, ?_⟩
  · show (CompileScope.markScopeAsUsed s).funcs = _
    rw [CompileScope.markScopeAsUsed, h]
    cases hsa : (f.scopeArg == "") with
    | true => simp [hsa]
    | false =>
      simp only [hsa, Bool.false_eq_true, if_false]
      rw [h]
  · cases hsa : (f.scopeArg == "") with
    | true =>
      simp only [hsa, if_true]
      intro hc
      have := congrArg String.data hc
      rw [String.data_append] at this
      simp at this
    | false =>
      simp only [Bool.false_eq_true, if_false]
      exact fun hc => by simp [hc] at hsa
  · intro g hg
    show s.options.host ++ _ ++ g.scopeArg = _
    rw [hg]
    exact String.append_empty _

/-- C3 witness: with two nested functions and an empty current scopeArg, the
amended claim applies; the current context gains the scope argument text and
the ancestor context is untouched. -/
theorem c3_witness :
    (CompileScope.scopeSymbol "x"
        (CompileScope.enterFunction "b" none
          (CompileScope.enterFunction "a" none
            (CompileScope.init defaultOptions)).2).2).2.funcs =
      { plainCtx "$$b0" none none with
          scopeArg := if (plainCtx "$$b0" none none).scopeArg == "" then
            ", " ++ (CompileScope.enterFunction "b" none
              (CompileScope.enterFunction "a" none
                (CompileScope.init defaultOptions)).2).2.options.scope
            else (plainCtx "$$b0" none none).scopeArg }
        :: [plainCtx "$$a0" none none] :=
  (c3_scopeSymbol_marks_current_amended
    (CompileScope.enterFunction "b" none
      (CompileScope.enterFunction "a" none
        (CompileScope.init defaultOptions)).2).2
    (plainCtx "$$b0" none none) [plainCtx "$$a0" none none] "x" rfl).1

/-- C3 counterexample: the claim as stated is false — after entering two
nested functions and requesting a scope symbol, the current context's
scopeArg is marked but the ancestor's stays empty, so not every context on
the chain was marked as requiring the persistent-scope argument. -/
theorem c3_counterexample :
    (CompileScope.scopeSymbol "x"
        (CompileScope.enterFunction "b" none
          (CompileScope.enterFunction "a" none
            (CompileScope.init defaultOptions)).2).2).2.funcs.map
      (fun g => g.scopeArg) = [", scope", ""] ∧
    ¬ (∀ g ∈ (CompileScope.scopeSymbol "x"
        (CompileScope.enterFunction "b" none
          (CompileScope.enterFunction "a" none
            (CompileScope.init defaultOptions)).2).2).2.funcs,
        g.scopeArg ≠ "") :=
  ⟨rfl, by decide⟩

theorem lookup_append_fresh {v a : String} :
    ∀ l : List (String × String), l.lookup v = none →
    (l ++ [(v, a)]).lookup v = some a := by
  intro l
  induction l with
  | nil => intro _; simp [List.lookup_cons]
  | cons p rest ih =>
    intro hl
    rcases p with ⟨k, o⟩
    rcases eq_or_ne v k with hv | hv
    · rw [List.lookup_cons] at hl
      simp [beq_iff_eq, hv] at hl
    · rw [List.cons_append, List.lookup_cons]
      rw [List.lookup_cons] at hl
      have hb : (v == k) = false := beq_eq_false_iff_ne.mpr hv
      rw [hb] at hl ⊢
      exact ih hl

/-- C4 (confirmed): two updateSymbol requests with the same value expression
inside the same current function return the same alias; the second request
leaves the scope state entirely unchanged; when the value was not yet
memoized, the pair of calls prepends exactly one evaluation statement
const alias = value; to the current function's update list (all other
function contexts untouched); when it was already memoized, the stored alias
is returned and nothing changes. -/
theorem c4_updateSymbol_memoization (s : CompileScope) (f : FunctionContext)
    (rest : List FunctionContext) (n1 n2 v : String) (h : s.funcs = f :: rest) :
    ∃ a s1, CompileScope.updateSymbol n1 v s = some (a, s1) ∧
      CompileScope.updateSymbol n2 v s1 = some (a, s1) ∧
      (f.updateDeclarations.lookup v = none →
        s1.funcs.map (fun g => g.update) =
          (("const " ++ a ++ " = " ++ v ++ ";") :: f.update)
            :: rest.map (fun g => g.update)) ∧
      (∀ a0, f.updateDeclarations.lookup v = some a0 → a = a0 ∧ s1 = s) := by
  cases hl : f.updateDeclarations.lookup v with
  | some a0 =>
    refine ⟨a0, s, ?_, ?_, ?_, ?_⟩
    · simp only [CompileScope.updateSymbol, h, hl]
    · simp only [CompileScope.updateSymbol, h, hl]
    · intro hn
      exact absurd hn (by simp)
    · intro a1 ha1
      exact ⟨Option.some_inj.mp ha1, rfl⟩
  | none =>
    refine ⟨(f.updateSymbols.generate n1).1,
      { s with funcs := { f with
          updateSymbols := (f.updateSymbols.generate n1).2
          updateDeclarations :=
            f.updateDeclarations ++ [(v, (f.updateSymbols.generate n1).1)]
          update := ("const " ++ (f.updateSymbols.generate n1).1 ++ " = "
            ++ v ++ ";") :: f.update } :: rest },
      ?_, ?_, ?_, ?_⟩
    · simp only [CompileScope.updateSymbol, h, hl]
    · simp only [CompileScope.updateSymbol]
      rw [lookup_append_fresh _ hl]
    · intro _
      simp
    · intro a1 ha1
      exact absurd ha1 (by simp)

/-- C4 witness: memoizing host.props.items twice in the root template
function returns one shared alias and one prepended declaration. -/
theorem c4_witness :
    ∃ a s1, CompileScope.updateSymbol "t" "host.props.items"
        (CompileScope.enterFunction "template" none
          (CompileScope.init defaultOptions)).2 = some (a, s1) ∧
      CompileScope.updateSymbol "t" "host.props.items" s1 = some (a, s1) ∧
      ((plainCtx "$$template0" none none).updateDeclarations.lookup
          "host.props.items" = none →
        s1.funcs.map (fun g => g.update) =
          (("const " ++ a ++ " = " ++ "host.props.items" ++ ";")
            :: (plainCtx "$$template0" none none).update) :: []) ∧
      (∀ a0, (plainCtx "$$template0" none none).updateDeclarations.lookup
          "host.props.items" = some a0 → a = a0 ∧
          s1 = (CompileScope.enterFunction "template" none
            (CompileScope.init defaultOptions)).2) :=
  c4_updateSymbol_memoization _ (plainCtx "$$template0" none none) []
    "t" "t" "host.props.items" rfl

/-- C10 (confirmed): checkComponent warns at most once per unresolved dashed
tag name per scope instance — when the tag was never warned, the first call
delivers exactly one warning through the configured callback (none when the
callback is absent) and marks the tag warned; a second call with the same
still-unresolved tag name is the identity on the scope state, so no
additional warning is produced. -/
theorem c10_warn_once (s : CompileScope) (tag : String) (p1 p2 : Nat)
    (hdash : tag.data.contains '-' = true)
    (hunres : s.componentsMap.lookup tag = none) :
    (tag ∉ s.warned →
      (CompileScope.checkComponent tag p1 s).warnings =
        (if s.options.warnConfigured then
          s.warnings ++ [(CompileScope.missingComponentMsg tag, some p1)]
         else s.warnings)) ∧
    tag ∈ (CompileScope.checkComponent tag p1 s).warned ∧
    CompileScope.checkComponent tag p2 (CompileScope.checkComponent tag p1 s) =
      CompileScope.checkComponent tag p1 s := by
  by_cases hmem : tag ∈ s.warned
  · have hw : s.warned.contains tag = true := List.elem_iff.mpr hmem
    have hfirst : ∀ q : Nat, CompileScope.checkComponent tag q s = s := by
      intro q
      rw [CompileScope.checkComponent, hunres]
      show (if (tag.data.contains '-' && !(s.warned.contains tag)) = true
        then _ else s) = s
      rw [hdash, hw]
      simp
    refine ⟨fun hc => absurd hmem hc, ?_, ?_⟩
    · rw [hfirst p1]; exact hmem
    · rw [hfirst p1, hfirst p2]
  · have hw : s.warned.contains tag = false := by
      cases hcc : s.warned.contains tag
      · rfl
      · exact absurd (List.elem_iff.mp hcc) hmem
    have hfirst : CompileScope.checkComponent tag p1 s =
        CompileScope.warn (CompileScope.missingComponentMsg tag) (some p1)
          { s with warned := s.warned ++ [tag] } := by
      rw [CompileScope.checkComponent, hunres]
      show (if (tag.data.contains '-' && !(s.warned.contains tag)) = true
        then CompileScope.warn (CompileScope.missingComponentMsg tag) (some p1)
          { s with warned := s.warned ++ [tag] } else s) = _
      rw [hdash, hw]
      simp
    have hwarned : (CompileScope.checkComponent tag p1 s).warned =
        s.warned ++ [tag] := by
      rw [hfirst, CompileScope.warn]
      split
      · rfl
      · rfl
    have hmap : (CompileScope.checkComponent tag p1 s).componentsMap =
        s.componentsMap := by
      rw [hfirst, CompileScope.warn]
      split
      · rfl
      · rfl
    have hcontains : (CompileScope.checkComponent tag p1 s).warned.contains tag
        = true := by
      rw [hwarned]
      exact List.elem_iff.mpr (by simp)
    refine ⟨?_, ?_, ?_⟩
    · intro _
      rw [hfirst, CompileScope.warn]
      cases hcfg : s.options.warnConfigured
      · simp [hcfg]
      · simp [hcfg]
    · rw [hwarned]
      simp
    · rw [CompileScope.checkComponent, hmap, hunres]
      show (if (tag.data.contains '-'
          && !((CompileScope.checkComponent tag p1 s).warned.contains tag))
          = true then _ else CompileScope.checkComponent tag p1 s) = _
      rw [hdash, hcontains]
      simp

/-- C10 witness: with warnings configured, the unresolved dashed tag my-tag
is warned on the first checkComponent call and silently ignored on the
second. -/
theorem c10_witness :
    ("my-tag".data.contains '-' = true ∧
      (CompileScope.init { defaultOptions with
        warnConfigured := true }).componentsMap.lookup "my-tag" = none ∧
      "my-tag" ∉ (CompileScope.init { defaultOptions with
        warnConfigured := true }).warned) ∧
    (CompileScope.checkComponent "my-tag" 5
        (CompileScope.init { defaultOptions with
          warnConfigured := true })).warnings =
      (if (CompileScope.init { defaultOptions with
          warnConfigured := true }).options.warnConfigured then
        (CompileScope.init { defaultOptions with
          warnConfigured := true }).warnings ++
          [(CompileScope.missingComponentMsg "my-tag", some 5)]
       else (CompileScope.init { defaultOptions with
          warnConfigured := true }).warnings) ∧
    CompileScope.checkComponent "my-tag" 9
        (CompileScope.checkComponent "my-tag" 5
          (CompileScope.init { defaultOptions with warnConfigured := true })) =
      CompileScope.checkComponent "my-tag" 5
        (CompileScope.init { defaultOptions with warnConfigured := true }) :=
  ⟨⟨by decide, rfl, by decide⟩,
   (c10_warn_once (CompileScope.init { defaultOptions with
       warnConfigured := true }) "my-tag" 5 9 (by decide) rfl).1 (by decide),
   (c10_warn_once (CompileScope.init { defaultOptions with
       warnConfigured := true }) "my-tag" 5 9 (by decide) rfl).2.2⟩

/-- C5 (confirmed): for a matched enterFunction/exitFunction pair, when at
least one update statement was recorded, exitFunction emits the mount
function whose body ends with return symbolUpdate; followed by a second
function named symbolUpdate with the identical argument-list text; when no
update statement was recorded, the emitted text is the mount function alone
(no return statement and no update function appended). In both cases the
context is popped. -/
theorem c5_exitFunction_pairing (s : CompileScope) (f : FunctionContext)
    (rest : List FunctionContext) (body : List String)
    (h : s.funcs = f :: rest) :
    (f.update ≠ [] →
      CompileScope.exitFunction body s = some
        ("function " ++ f.symbol ++ "(" ++ CompileScope.argsText s.options f
          ++ ") \x7b\n" ++ s.options.indent
          ++ CompileScope.format body s.options.indent
          ++ "\n" ++ s.options.indent ++ "return " ++ f.symbol
          ++ "Update;\n\x7d\n\n"
          ++ "function " ++ f.symbol ++ "Update("
          ++ CompileScope.argsText s.options f ++ ") \x7b\n"
          ++ s.options.indent
          ++ CompileScope.format f.update s.options.indent ++ "\n\x7d",
         { s with funcs := rest })) ∧
    (f.update = [] →
      CompileScope.exitFunction body s = some
        ("function " ++ f.symbol ++ "(" ++ CompileScope.argsText s.options f
          ++ ") \x7b\n" ++ s.options.indent
          ++ CompileScope.format body s.options.indent ++ "\n\x7d",
         { s with funcs := rest })) := by
  constructor
  · intro hu
    have hie : f.update.isEmpty = false := by
      cases hul : f.update
      · exact absurd hul hu
      · rfl
    rw [CompileScope.exitFunction, h]
    simp only [hie, Bool.false_eq_true, if_false]
  · intro hu
    have hie : f.update.isEmpty = true := by rw [hu]; rfl
    rw [CompileScope.exitFunction, h]
    simp only [hie, if_true]

/-- C5 witness: a template function with one recorded update statement emits
the mount/update pair with identical argument lists and the mount body
returning the update function. -/
theorem c5_witness :
    ((["u;"] : List String) ≠ []) ∧
    CompileScope.exitFunction ["b;"]
        ((CompileScope.pushUpdate "u;"
            (CompileScope.enterFunction "template" none
              (CompileScope.init defaultOptions)).2).getD
          (CompileScope.init defaultOptions)) =
      some ("function $$template0(host) \x7b\n\tb;\n\treturn $$template0Update;\n\x7d\n\nfunction $$template0Update(host) \x7b\n\tu;\n\x7d",
        { (CompileScope.pushUpdate "u;"
            (CompileScope.enterFunction "template" none
              (CompileScope.init defaultOptions)).2).getD
          (CompileScope.init defaultOptions) with funcs := [] }) :=
  ⟨by decide,
   (c5_exitFunction_pairing
     ((CompileScope.pushUpdate "u;"
         (CompileScope.enterFunction "template" none
           (CompileScope.init defaultOptions)).2).getD
       (CompileScope.init defaultOptions))
     { plainCtx "$$template0" none none with update := ["u;"] } [] ["b;"] rfl).1
     (by decide)⟩

theorem runPair_eq (prog : List (Bool × Op)) :
    ∀ a b : CompileScope,
    runPair prog (a, b) =
      match runOps (sideOps true prog) a, runOps (sideOps false prog) b with
      | some a1, some b1 => some (a1, b1)
      | _, _ => none := by
  induction prog with
  | nil => intro a b; rfl
  | cons p rest ih =>
    intro a b
    rcases p with ⟨side, op⟩
    cases side
    · show (match op.apply b with
        | none => none
        | some b1 => runPair rest (a, b1)) = _
      cases hob : op.apply b with
      | none =>
        show none = (match runOps (sideOps true rest) a,
          (match op.apply b with
            | none => none
            | some b1 => runOps (sideOps false rest) b1) with
          | some a1, some b1 => some (a1, b1)
          | _, _ => none)
        rw [hob]
        all_goals cases runOps (sideOps true rest) a <;> rfl
      | some b1 =>
        show runPair rest (a, b1) = (match runOps (sideOps true rest) a,
          (match op.apply b with
            | none => none
            | some b2 => runOps (sideOps false rest) b2) with
          | some a1, some b2 => some (a1, b2)
          | _, _ => none)
        rw [hob, ih]
    · show (match op.apply a with
        | none => none
        | some a1 => runPair rest (a1, b)) = _
      cases hoa : op.apply a with
      | none =>
        show none = (match (match op.apply a with
            | none => none
            | some a1 => runOps (sideOps true rest) a1),
            runOps (sideOps false rest) b with
          | some a1, some b1 => some (a1, b1)
          | _, _ => none)
        rw [hoa]
      | some a1 =>
        show runPair rest (a1, b) = (match (match op.apply a with
            | none => none
            | some a2 => runOps (sideOps true rest) a2),
            runOps (sideOps false rest) b with
          | some a2, some b1 => some (a2, b1)
          | _, _ => none)
        rw [hoa, ih]

/-- C6 (confirmed): compilation is deterministic and instances are
independent — for two freshly constructed CompileScope instances driven by
any interleavings whose first-instance operation sequences agree, the first
instance ends in the same state and compile() returns byte-identical code
text, whatever the second instance did in between; no state of one instance
is observable by the other. -/
theorem c6_compile_deterministic (opts : CompileScopeOptions)
    (prog1 prog2 : List (Bool × Op)) (a1 b1 a2 b2 : CompileScope)
    (hsame : sideOps true prog1 = sideOps true prog2)
    (h1 : runPair prog1 (CompileScope.init opts, CompileScope.init opts) =
      some (a1, b1))
    (h2 : runPair prog2 (CompileScope.init opts, CompileScope.init opts) =
      some (a2, b2)) :
    a1 = a2 ∧ (CompileScope.compile a1).1 = (CompileScope.compile a2).1 := by
  have e1 := runPair_eq prog1 (CompileScope.init opts) (CompileScope.init opts)
  have e2 := runPair_eq prog2 (CompileScope.init opts) (CompileScope.init opts)
  rw [h1] at e1
  rw [h2] at e2
  have ha : a1 = a2 := by
    cases hr1 : runOps (sideOps true prog1) (CompileScope.init opts) with
    | none =>
      rw [hr1] at e1
      cases hy : runOps (sideOps false prog1) (CompileScope.init opts) with
      | none => rw [hy] at e1; exact absurd e1 (by simp)
      | some bv => rw [hy] at e1; exact absurd e1 (by simp)
    | some av =>
      rw [hr1] at e1
      cases hy1 : runOps (sideOps false prog1) (CompileScope.init opts) with
      | none => rw [hy1] at e1; exact absurd e1 (by simp)
      | some bv1 =>
        rw [hy1] at e1
        cases hr2 : runOps (sideOps true prog2) (CompileScope.init opts) with
        | none =>
          rw [hsame, hr2] at hr1
          exact absurd hr1 (by simp)
        | some av2 =>
          rw [hr2] at e2
          cases hy2 : runOps (sideOps false prog2) (CompileScope.init opts) with
          | none => rw [hy2] at e2; exact absurd e2 (by simp)
          | some bv2 =>
            rw [hy2] at e2
            have hv : av = av2 := by
              rw [hsame, hr2] at hr1
              exact (Option.some_inj.mp hr1).symm
            have ha1 : a1 = av := (Prod.ext_iff.mp (Option.some_inj.mp e1)).1
            have ha2 : a2 = av2 := (Prod.ext_iff.mp (Option.some_inj.mp e2)).1
            rw [ha1, ha2, hv]
  exact ⟨ha, by rw [ha]⟩

/-- C6 witness: two different interleavings with the same first-instance
operations — the second instance performing unrelated work — leave the first
instance with identical compiled output. -/
theorem c6_witness :
    (CompileScope.compile
      (((runPair [(true, Op.globalSymbol "x"), (false, Op.scopeSymbol "y")]
          (CompileScope.init defaultOptions, CompileScope.init defaultOptions)).getD
        (CompileScope.init defaultOptions, CompileScope.init defaultOptions)).1)).1 =
    (CompileScope.compile
      (((runPair [(false, Op.checkComponent "a-b" 3), (true, Op.globalSymbol "x")]
          (CompileScope.init defaultOptions, CompileScope.init defaultOptions)).getD
        (CompileScope.init defaultOptions, CompileScope.init defaultOptions)).1)).1 :=
  (c6_compile_deterministic defaultOptions
    [(true, Op.globalSymbol "x"), (false, Op.scopeSymbol "y")]
    [(false, Op.checkComponent "a-b" 3), (true, Op.globalSymbol "x")]
    _ _ _ _ rfl rfl rfl).2

theorem wordStart_not_space {c : Char} (h : wordStart c = true) :
    (c == ' ' || c == '\t' || c == '\n') = false := by
  cases hsp : (c == ' ' || c == '\t' || c == '\n')
  · rfl
  · exfalso
    rcases Bool.or_eq_true_iff.mp hsp with h1 | h2
    · rcases Bool.or_eq_true_iff.mp h1 with ha | hb
      · rw [beq_iff_eq.mp ha] at h; exact absurd h (by decide)
      · rw [beq_iff_eq.mp hb] at h; exact absurd h (by decide)
    · rw [beq_iff_eq.mp h2] at h; exact absurd h (by decide)

theorem tokenizeAux_fuel : ∀ (f1 : Nat) (l : List Char) (f2 : Nat),
    l.length ≤ f1 → l.length ≤ f2 → tokenizeAux f1 l = tokenizeAux f2 l := by
  intro f1
  induction f1 with
  | zero =>
    intro l f2 h1 _
    have hl : l = [] := List.length_eq_zero.mp (Nat.le_zero.mp h1)
    subst hl
    cases f2 <;> rfl
  | succ f ih =>
    intro l f2 h1 h2
    cases l with
    | nil => cases f2 <;> rfl
    | cons c rest =>
      cases f2 with
      | zero => simp at h2
      | succ f2x =>
        have hr1 : rest.length ≤ f := by simp at h1; omega
        have hr2 : rest.length ≤ f2x := by simp at h2; omega
        cases hsp : (c == ' ' || c == '\t' || c == '\n') with
        | true =>
          simp only [tokenizeAux, hsp, if_true]
          exact ih rest f2x hr1 hr2
        | false =>
          cases hws : wordStart c with
          | true =>
            simp only [tokenizeAux, hsp, Bool.false_eq_true, if_false, hws,
              if_true]
            have hd : (rest.dropWhile wordCont).length ≤ rest.length :=
              (List.dropWhile_sublist _).length_le
            exact congrArg _ (ih _ f2x (le_trans hd hr1) (le_trans hd hr2))
          | false =>
            cases hdg : c.isDigit with
            | true =>
              simp only [tokenizeAux, hsp, hws, Bool.false_eq_true, if_false,
                hdg, if_true]
              have hd : (rest.dropWhile Char.isDigit).length ≤ rest.length :=
                (List.dropWhile_sublist _).length_le
              exact congrArg _ (ih _ f2x (le_trans hd hr1) (le_trans hd hr2))
            | false =>
              simp only [tokenizeAux, hsp, hws, hdg, Bool.false_eq_true,
                if_false]
              exact congrArg _ (ih rest f2x hr1 hr2)

theorem tokenize_word (c : Char) (w rest : List Char)
    (hstart : wordStart c = true) (hcont : ∀ x ∈ w, wordCont x = true)
    (hstop : ∀ x, rest.head? = some x → wordCont x = false) :
    tokenize (String.mk (c :: (w ++ rest))) =
      Tok.name (String.mk (c :: w)) :: tokenize (String.mk rest) := by
  have hsp := wordStart_not_space hstart
  have htk : (w ++ rest).takeWhile wordCont = w ++ rest.takeWhile wordCont :=
    List.takeWhile_append_of_pos hcont
  have hdk : (w ++ rest).dropWhile wordCont = rest.dropWhile wordCont :=
    List.dropWhile_append_of_pos hcont
  have htr : rest.takeWhile wordCont = [] := by
    cases rest with
    | nil => rfl
    | cons x xs =>
      have hx := hstop x rfl
      simp [List.takeWhile_cons, hx]
  have hdr : rest.dropWhile wordCont = rest := by
    cases rest with
    | nil => rfl
    | cons x xs =>
      have hx := hstop x rfl
      simp [List.dropWhile_cons, hx]
  show tokenizeAux ((c :: (w ++ rest)).length) (c :: (w ++ rest)) = _
  rw [List.length_cons]
  simp only [tokenizeAux, hsp, Bool.false_eq_true, if_false, hstart, if_true]
  rw [htk, htr, List.append_nil, hdk, hdr]
  exact congrArg _ (tokenizeAux_fuel _ rest _
    (le_trans (Nat.le_add_left _ _) (Nat.le_of_eq (List.length_append _ _).symm))
    (Nat.le_refl _))

theorem tokenize_dash_start (rest : List Char) :
    tokenize (String.mk ('-' :: rest)) =
      Tok.punct '-' :: tokenize (String.mk rest) := by
  show tokenizeAux (('-' :: rest).length) ('-' :: rest) = _
  rw [List.length_cons]
  simp only [tokenizeAux]
  rw [if_neg (by decide), if_neg (by decide), if_neg (by decide)]
  rfl

/-- C7 (corrected). Amended claim proved here: a token starting with an
identifier-start character, a reference sigil or the attribute sigil extends
maximally through identifier characters and dashes into a single identifier
token (so #ref-name and foo-bar are single tokens); a leading dash before a
digit lexes as the minus operator followed by a numeric literal, not as an
identifier; but the sigil is recognized at every token-start position, so
a#b lexes as the identifier a followed by the sigil-identifier #b (the
amendment: the claim said a#b contains no sigil-identifier). -/
theorem c7_tokenizer_amended :
    (∀ (c : Char) (w rest : List Char), wordStart c = true →
      (∀ x ∈ w, wordCont x = true) →
      (∀ x, rest.head? = some x → wordCont x = false) →
      tokenize (String.mk (c :: (w ++ rest))) =
        Tok.name (String.mk (c :: w)) :: tokenize (String.mk rest)) ∧
    (∀ rest : List Char, tokenize (String.mk ('-' :: rest)) =
      Tok.punct '-' :: tokenize (String.mk rest)) ∧
    tokenize "#ref-name" = [Tok.name "#ref-name"] ∧
    tokenize "foo-bar" = [Tok.name "foo-bar"] ∧
    tokenize "-3" = [Tok.punct '-', Tok.num "3"] ∧
    tokenize "a#b" = [Tok.name "a", Tok.name "#b"] :=
  ⟨tokenize_word, tokenize_dash_start, by decide, by decide, by decide, by decide⟩

/-- C7 witness: the maximal-run clause applied to the concrete input
#ref-name — the sigil plus eight continuation characters form one token. -/
theorem c7_witness :
    (wordStart '#' = true ∧
      (∀ x ∈ ("ref-name".data), wordCont x = true)) ∧
    tokenize (String.mk ('#' :: ("ref-name".data ++ []))) =
      Tok.name (String.mk ('#' :: "ref-name".data)) :: tokenize (String.mk []) :=
  ⟨⟨by decide, by decide⟩,
   c7_tokenizer_amended.1 '#' "ref-name".data [] (by decide) (by decide)
     (fun x hx => Option.noConfusion hx)⟩

/-- C7 counterexample: the claim as stated is false — the extended tokenizer
does produce a sigil-identifier inside a#b: the input lexes as the
identifier a followed by the sigil-identifier #b. -/
theorem c7_counterexample :
    (tokenize "a#b").any isSigilName = true := by decide

theorem warnAll_warnings : ∀ (ws : List (String × Option Nat)) (s : CompileScope),
    (CompileScope.warnAll ws s).warnings =
      s.warnings ++ (if s.options.warnConfigured = true then ws else []) := by
  intro ws
  induction ws with
  | nil =>
    intro s
    cases hc : s.options.warnConfigured <;> simp [CompileScope.warnAll, hc]
  | cons w rest ih =>
    intro s
    show (CompileScope.warnAll rest (CompileScope.warn w.1 w.2 s)).warnings = _
    rw [ih]
    cases hc : s.options.warnConfigured with
    | true =>
      have h1 : (CompileScope.warn w.1 w.2 s).warnings = s.warnings ++ [w] := by
        rw [CompileScope.warn]
        simp [hc]
      have h2 : (CompileScope.warn w.1 w.2 s).options = s.options := by
        rw [CompileScope.warn]
        split
        · rfl
        · rfl
      rw [h1, h2, hc]
      simp
    | false =>
      have h1 : CompileScope.warn w.1 w.2 s = s := by
        rw [CompileScope.warn]
        simp [hc]
      rw [h1, hc]
      simp

theorem componentsWarnings_snd (b1 b2 : Bool)
    (m : List (String × ComponentImport)) :
    (CompileScope.componentsWarnings b1 m).map Prod.snd =
      (CompileScope.componentsWarnings b2 m).map Prod.snd := by
  simp only [CompileScope.componentsWarnings, List.map_map]
  rfl

theorem componentsText_true_filter : ∀ m : List (String × ComponentImport),
    CompileScope.componentsText true m =
      CompileScope.concatAll ((m.filter fun pr => pr.2.used).map
        fun pr => CompileScope.componentLine pr.2) := by
  intro m
  induction m with
  | nil => rfl
  | cons p rest ih =>
    cases hu : p.2.used with
    | true =>
      show (if (!p.2.used && true) = true then ""
          else CompileScope.componentLine p.2) ++ _ = _
      rw [List.filter_cons]
      simp only [hu, Bool.not_true, Bool.false_and, Bool.false_eq_true,
        if_false, if_true, List.map_cons]
      show CompileScope.componentLine p.2 ++
        CompileScope.componentsText true rest = _
      rw [ih]
      rfl
    | false =>
      show (if (!p.2.used && true) = true then ""
          else CompileScope.componentLine p.2) ++ _ = _
      rw [List.filter_cons]
      simp only [hu, Bool.not_false, Bool.true_and, if_true,
        Bool.false_eq_true, if_false]
      show "" ++ CompileScope.componentsText true rest = _
      rw [ih]
      rfl

/-- C8 (confirmed): unused-import and missing-component diagnostics are
advisory — compile() always assembles its output, toggling
removeUnusedImports changes only whether unused component import lines appear
(the surrounding module text is the same function of the state), the
warnings' delivery and positions are identical under both settings (one
warning per unused import through the configured callback), and a dashed
unresolved tag warned by checkComponent likewise only appends a warning. -/
theorem c8_warnings_advisory (s : CompileScope) (tag : String) (q : Nat) :
    (∀ b : Bool, (CompileScope.compile (withRemoveUnused b s)).1 =
      CompileScope.runtimeImportText s
        ++ CompileScope.componentsText b s.componentsMap
        ++ CompileScope.tailText s) ∧
    CompileScope.componentsText false s.componentsMap =
      CompileScope.concatAll (s.componentsMap.map fun pr =>
        CompileScope.componentLine pr.2) ∧
    CompileScope.componentsText true s.componentsMap =
      CompileScope.concatAll ((s.componentsMap.filter fun pr => pr.2.used).map
        fun pr => CompileScope.componentLine pr.2) ∧
    ((CompileScope.compile (withRemoveUnused true s)).2.warnings.map Prod.snd =
      (CompileScope.compile (withRemoveUnused false s)).2.warnings.map
        Prod.snd) ∧
    (s.options.warnConfigured = true → ∀ b : Bool,
      (CompileScope.compile (withRemoveUnused b s)).2.warnings =
        s.warnings ++ CompileScope.componentsWarnings b s.componentsMap) ∧
    (tag.data.contains '-' = true → s.componentsMap.lookup tag = none →
      tag ∉ s.warned → s.options.warnConfigured = true →
      (CompileScope.checkComponent tag q s).warnings =
        s.warnings ++ [(CompileScope.missingComponentMsg tag, some q)]) ∧
    (∀ (b : Bool) (nm : String) (item : ComponentImport),
      (nm, item) ∈ s.componentsMap → item.used = false →
      (CompileScope.unusedImportMsg b nm, some item.pos) ∈
        CompileScope.componentsWarnings b s.componentsMap) := by
  have hwb : ∀ b : Bool, (CompileScope.compile (withRemoveUnused b s)).2.warnings
      = s.warnings ++ (if s.options.warnConfigured = true then
        CompileScope.componentsWarnings b s.componentsMap else []) := by
    intro b
    show (CompileScope.warnAll
      (CompileScope.componentsWarnings b s.componentsMap)
      (withRemoveUnused b s)).warnings = _
    rw [warnAll_warnings]
    rfl
  refine ⟨fun b => rfl, ?_, componentsText_true_filter s.componentsMap,
    ?_, ?_, ?_, ?_⟩
  · simp [CompileScope.componentsText, Bool.and_false]
  · rw [hwb true, hwb false]
    cases hc : s.options.warnConfigured with
    | true =>
      simp only [if_true]
      rw [List.map_append, List.map_append,
        componentsWarnings_snd true false]
    | false => simp
  · intro hc b
    rw [hwb b, hc]
    simp
  · intro hdash hunres hmem hc
    have hw : s.warned.contains tag = false := by
      cases hcc : s.warned.contains tag
      · rfl
      · exact absurd (List.elem_iff.mp hcc) hmem
    rw [CompileScope.checkComponent, hunres]
    show (if (tag.data.contains '-' && !(s.warned.contains tag)) = true
      then CompileScope.warn (CompileScope.missingComponentMsg tag) (some q)
        { s with warned := s.warned ++ [tag] } else s).warnings = _
    rw [hdash, hw]
    show (CompileScope.warn (CompileScope.missingComponentMsg tag) (some q)
      { s with warned := s.warned ++ [tag] }).warnings = _
    rw [CompileScope.warn]
    simp [hc]
  · intro b nm item hmemm hused
    exact List.mem_map.mpr ⟨(nm, item),
      List.mem_filter.mpr ⟨hmemm, by simp [hused]⟩, rfl⟩

/-- C8 witness: one registered, never-used component import under a
configured warn callback — removal enabled still delivers the unused-import
warning, assembles output, and the dashed unresolved tag other-tag is warned
without stopping anything. -/
theorem c8_witness :
    ((CompileScope.registerComponent "my-tag" "myTag" "./my-tag.html" 7
        (CompileScope.init { defaultOptions with
          warnConfigured := true })).options.warnConfigured = true) ∧
    (∀ b : Bool, (CompileScope.compile (withRemoveUnused b
        (CompileScope.registerComponent "my-tag" "myTag" "./my-tag.html" 7
          (CompileScope.init { defaultOptions with
            warnConfigured := true })))).1 =
      CompileScope.runtimeImportText
          (CompileScope.registerComponent "my-tag" "myTag" "./my-tag.html" 7
            (CompileScope.init { defaultOptions with warnConfigured := true }))
        ++ CompileScope.componentsText b
          (CompileScope.registerComponent "my-tag" "myTag" "./my-tag.html" 7
            (CompileScope.init { defaultOptions with
              warnConfigured := true })).componentsMap
        ++ CompileScope.tailText
          (CompileScope.registerComponent "my-tag" "myTag" "./my-tag.html" 7
            (CompileScope.init { defaultOptions with
              warnConfigured := true }))) ∧
    (∀ b : Bool, (CompileScope.compile (withRemoveUnused b
        (CompileScope.registerComponent "my-tag" "myTag" "./my-tag.html" 7
          (CompileScope.init { defaultOptions with
            warnConfigured := true })))).2.warnings =
      (CompileScope.registerComponent "my-tag" "myTag" "./my-tag.html" 7
        (CompileScope.init { defaultOptions with
          warnConfigured := true })).warnings ++
        CompileScope.componentsWarnings b
          (CompileScope.registerComponent "my-tag" "myTag" "./my-tag.html" 7
            (CompileScope.init { defaultOptions with
              warnConfigured := true })).componentsMap) ∧
    (CompileScope.checkComponent "other-tag" 3
        (CompileScope.registerComponent "my-tag" "myTag" "./my-tag.html" 7
          (CompileScope.init { defaultOptions with
            warnConfigured := true }))).warnings =
      (CompileScope.registerComponent "my-tag" "myTag" "./my-tag.html" 7
        (CompileScope.init { defaultOptions with
          warnConfigured := true })).warnings ++
        [(CompileScope.missingComponentMsg "other-tag", some 3)] :=
  ⟨rfl,
   (c8_warnings_advisory
     (CompileScope.registerComponent "my-tag" "myTag" "./my-tag.html" 7
       (CompileScope.init { defaultOptions with warnConfigured := true }))
     "other-tag" 3).1,
   (c8_warnings_advisory
     (CompileScope.registerComponent "my-tag" "myTag" "./my-tag.html" 7
       (CompileScope.init { defaultOptions with warnConfigured := true }))
     "other-tag" 3).2.2.2.2.1 rfl,
   (c8_warnings_advisory
     (CompileScope.registerComponent "my-tag" "myTag" "./my-tag.html" 7
       (CompileScope.init { defaultOptions with warnConfigured := true }))
     "other-tag" 3).2.2.2.2.2.1 (by decide) rfl (by decide) rfl⟩

end TC
